import Mathlib

/-!
Verification of the animation-gallery core (canvas engine, animation registry,
hover-play concurrency manager, canvas resource pool) against its
natural-language specification.

The TypeScript sources are shallowly embedded: each class becomes a Lean
structure holding the same private fields, each method a pure function on that
structure (state-passing).  JS `Map` objects become association lists,
JS `Set` objects (whose iteration order is insertion order) become lists with
the head as the oldest element, promises become explicit references settled by
explicit `settle` steps, and a method with a `throw` site returns the state
it leaves the object in together with the thrown error, if any (a JS
exception does not roll back the field assignments already executed).
Timestamps (`performance.now()` / `requestAnimationFrame` arguments) are
modelled as exact rationals.
-/

/- The Batteries definitions of the rational operations are `@[irreducible]`;
re-enable unfolding locally so that concrete engine runs (frame timestamps
are rationals) can be evaluated by `decide`. -/
attribute [local semireducible] Rat.sub Rat.add Rat.mul Rat.inv Rat.ofScientific

namespace AssocMap
/-- `Map.get`: first binding for the key, if any. -/
def mapGet {κ β : Type} [DecidableEq κ] (k : κ) : List (κ × β) → Option β
  | [] => none
  | (k', v) :: rest => if k = k' then some v else mapGet k rest

/-- `Map.set`: bind `k` to `v`, dropping any previous binding. -/
def mapSet {κ β : Type} [DecidableEq κ] (k : κ) (v : β) (l : List (κ × β)) :
    List (κ × β) :=
  (k, v) :: l.filter (fun p => p.1 ≠ k)

/-- `Map.delete`: remove the binding for `k`, if any. -/
def mapErase {κ β : Type} [DecidableEq κ] (k : κ) (l : List (κ × β)) :
    List (κ × β) :=
  l.filter (fun p => p.1 ≠ k)

end AssocMap
namespace Registry
open AssocMap

/-!
## Animation Registry (`src/lib/animations/registry.ts`)

The registry keeps `entries` (registered ids), `loadedCache` (id ↦ loaded
module), and `loadingPromises` (id ↦ in-flight promise).  Loaded animation
modules are identified by numeric references; promises by numeric references
settled through `settleSuccess` / `settleFailure` (the `.then` / `.catch`
continuations of the loader call in `getById`).  `loaderCalls` logs one entry
per loader invocation, and `resolved` records the value each settled promise
delivers to every caller awaiting it (`none` models the `null` result of the
`.catch` branch).
-/

structure RegistryState where
  /-- Ids present in the `entries` map (the loader itself carries no data we
  need beyond its invocation count, tracked in `loaderCalls`). -/
  entries : List String
  /-- `loadedCache`: id ↦ loaded module reference. -/
  loadedCache : List (String × Nat)
  /-- `loadingPromises`: id ↦ reference of the shared in-flight promise. -/
  loadingPromises : List (String × Nat)
  /-- Settled promises: promise reference ↦ delivered value
  (`some m` for a module, `none` for the `null` of a failed load). -/
  resolved : List (Nat × Option Nat)
  /-- Supply of fresh promise references. -/
  nextPromise : Nat
  /-- Log of loader invocations: one entry (the id) per invocation. -/
  loaderCalls : List String
deriving Repr, DecidableEq

/-- What a `getById` call hands back to its caller. -/
inductive GetByIdResult
  /-- `return null` for an id with no registry entry. -/
  | unregistered
  /-- Immediately resolved from `loadedCache`. -/
  | cached (m : Nat)
  /-- The shared in-flight promise (freshly created or an existing one). -/
  | pending (p : Nat)
deriving Repr, DecidableEq

/-- `AnimationRegistry.getById`, one caller: tier (a) cache, tier (b) existing
in-flight promise, tier (c) invoke the loader, record the in-flight promise. -/
def getById (s : RegistryState) (id : String) :
    RegistryState × GetByIdResult :=
  if id ∈ s.entries then
    match mapGet id s.loadedCache with
    | some m => (s, .cached m)
    | none =>
      match mapGet id s.loadingPromises with
      | some p => (s, .pending p)
      | none =>
        let p := s.nextPromise
        ({ s with
            loadingPromises := mapSet id p s.loadingPromises
            nextPromise := p + 1
            loaderCalls := s.loaderCalls ++ [id] }, .pending p)
  else (s, .unregistered)

/-- The `.then` continuation of the loader call: cache the module, evict the
in-flight marker, resolve the shared promise with the module. -/
def settleSuccess (s : RegistryState) (id : String) (m : Nat) : RegistryState :=
  match mapGet id s.loadingPromises with
  | some p =>
    { s with
        loadedCache := mapSet id m s.loadedCache
        loadingPromises := mapErase id s.loadingPromises
        resolved := mapSet p (some m) s.resolved }
  | none => s

/-- The `.catch` continuation of the loader call: log (not modelled), evict the
in-flight marker, resolve the shared promise with `null`; the cache is not
touched. -/
def settleFailure (s : RegistryState) (id : String) : RegistryState :=
  match mapGet id s.loadingPromises with
  | some p =>
    { s with
        loadingPromises := mapErase id s.loadingPromises
        resolved := mapSet p none s.resolved }
  | none => s

/-- `clearCache`: drop all cached modules and in-flight markers. -/
def clearCache (s : RegistryState) : RegistryState :=
  { s with loadedCache := [], loadingPromises := [] }

/-- `n` back-to-back `getById` calls for the same id (the loader has no chance
to settle in between: the host is single-threaded and settling is a separate
event-loop turn). -/
def getByIdN (s : RegistryState) (id : String) :
    Nat → RegistryState × List GetByIdResult
  | 0 => (s, [])
  | n + 1 =>
    let r := getById s id
    let rest := getByIdN r.1 id n
    (rest.1, r.2 :: rest.2)

/-- A concrete registry state with one registered id, nothing cached and
nothing in flight. -/
def regW : RegistryState :=
  { entries := ["spiral"], loadedCache := [], loadingPromises := []
    resolved := [], nextPromise := 0, loaderCalls := [] }

/-- A concrete registry state with one registered id whose load is in flight
as promise `0`. -/
def regW3 : RegistryState :=
  { entries := ["spiral"], loadedCache := [], loadingPromises := [("spiral", 0)]
    resolved := [], nextPromise := 1, loaderCalls := ["spiral"] }

/-!
### `AnimationRegistry.sort`

`difficulty` is compared by the fixed ordinal map `{easy: 0, medium: 1,
hard: 2}`; `name`/`category` by `localeCompare` (modelled as ordinary string
comparison); `createdAt`/`updatedAt` by parsed-date difference when both
fields are present and as `0` (equal) otherwise.  ECMAScript requires
`Array.prototype.sort` to be stable, so the sort itself is modelled as a
stable insertion sort over the comparator the source builds. -/

inductive Difficulty
  | easy
  | medium
  | hard
deriving Repr, DecidableEq

inductive Category
  | particles
  | waves
  | geometric
  | text
  | glitch
deriving Repr, DecidableEq

def categoryString : Category → String
  | .particles => "particles"
  | .waves => "waves"
  | .geometric => "geometric"
  | .text => "text"
  | .glitch => "glitch"

structure AnimationMetadata where
  id : String
  name : String
  description : String
  category : Category
  difficulty : Difficulty
  tags : List String
  /-- Millisecond timestamp of the parsed `createdAt` date; `none` when the
  optional field is absent. -/
  createdAt : Option Int
  /-- Millisecond timestamp of the parsed `updatedAt` date; `none` when the
  optional field is absent. -/
  updatedAt : Option Int
deriving Repr, DecidableEq

/-- `const difficultyOrder = { easy: 0, medium: 1, hard: 2 }`. -/
def difficultyOrder : Difficulty → Int
  | .easy => 0
  | .medium => 1
  | .hard => 2

/-- `a.localeCompare(b)`, modelled as plain string comparison. -/
def compareString (a b : String) : Int :=
  match compare a b with
  | .lt => -1
  | .eq => 0
  | .gt => 1

inductive SortKey
  | name
  | category
  | difficulty
  | createdAt
  | updatedAt
deriving Repr, DecidableEq

inductive SortOrder
  | asc
  | desc
deriving Repr, DecidableEq

/-- The `comparison` value computed by the `switch` in
`AnimationRegistry.sort` before the order sign is applied. -/
def comparison (k : SortKey) (a b : AnimationMetadata) : Int :=
  match k with
  | .name => compareString a.name b.name
  | .category => compareString (categoryString a.category) (categoryString b.category)
  | .difficulty => difficultyOrder a.difficulty - difficultyOrder b.difficulty
  | .createdAt =>
    match a.createdAt, b.createdAt with
    | some x, some y => x - y
    | _, _ => 0
  | .updatedAt =>
    match a.updatedAt, b.updatedAt with
    | some x, some y => x - y
    | _, _ => 0

/-- `return order === 'asc' ? comparison : -comparison`. -/
def orderedComparison (k : SortKey) (o : SortOrder) (a b : AnimationMetadata) :
    Int :=
  match o with
  | .asc => comparison k a b
  | .desc => -(comparison k a b)

/-- Stable insertion into a sorted list: `x` goes in front of the first
element it does not compare strictly greater than. -/
def insertSorted {α : Type} (cmp : α → α → Int) (x : α) : List α → List α
  | [] => [x]
  | y :: l => if cmp x y ≤ 0 then x :: y :: l else y :: insertSorted cmp x l

/-- Stable sort (the ECMAScript-mandated behavior of
`Array.prototype.sort`). -/
def stableSort {α : Type} (cmp : α → α → Int) : List α → List α
  | [] => []
  | x :: l => insertSorted cmp x (stableSort cmp l)

/-- `AnimationRegistry.sort(animations, { by, order })`. -/
def sortAnimations (l : List AnimationMetadata) (k : SortKey) (o : SortOrder) :
    List AnimationMetadata :=
  stableSort (orderedComparison k o) l

def metaEasy : AnimationMetadata :=
  { id := "line-waves", name := "Line Waves", description := "flowing lines"
    category := .waves, difficulty := .easy, tags := ["calm"]
    createdAt := none, updatedAt := none }

def metaMedium : AnimationMetadata :=
  { id := "hexagon-grid", name := "Hexagon Grid", description := "tiling"
    category := .geometric, difficulty := .medium, tags := ["grid"]
    createdAt := some 100, updatedAt := some 200 }

def metaHard : AnimationMetadata :=
  { id := "pixel-sort", name := "Pixel Sort", description := "sorted pixels"
    category := .glitch, difficulty := .hard, tags := ["chaotic"]
    createdAt := some 50, updatedAt := some 60 }

def metaEasy2 : AnimationMetadata :=
  { id := "type-effect", name := "Type Effect", description := "typing"
    category := .text, difficulty := .easy, tags := ["retro"]
    createdAt := some 300, updatedAt := none }

end Registry
namespace HoverPlay
open AssocMap

/-!
## Hover Play Manager (`hover-play-manager.ts`)

`activeAnimations` is a JS `Set`, whose iteration order is insertion order;
it is modelled as a list whose head is the oldest registration.
`cleanupFunctions` maps each active id to its cleanup callback, identified by
a numeric reference; `invoked` logs every callback invocation in order. -/

structure HoverPlayManager where
  activeAnimations : List String
  cleanupFunctions : List (String × Nat)
  maxConcurrent : Nat
  /-- Log of invoked cleanup callbacks, in invocation order. -/
  invoked : List Nat
deriving Repr, DecidableEq

/-- The manager as constructed: empty, `maxConcurrent = 3`. -/
def initial : HoverPlayManager :=
  { activeAnimations := [], cleanupFunctions := [], maxConcurrent := 3
    invoked := [] }

/-- `unregister`: invoke and drop the stored cleanup if present, then remove
the id from the active set. -/
def unregister (s : HoverPlayManager) (id : String) : HoverPlayManager :=
  let s1 :=
    match mapGet id s.cleanupFunctions with
    | some c =>
      { s with
          invoked := s.invoked ++ [c]
          cleanupFunctions := mapErase id s.cleanupFunctions }
    | none => s
  { s1 with activeAnimations := s1.activeAnimations.filter (fun a => a ≠ id) }

/-- `register`: refuse duplicates; at or above the cap, evict the oldest
active id — guarded by JS truthiness (`if (oldestId)`), which skips the
eviction when the oldest id is the empty string — then admit the new id. -/
def register (s : HoverPlayManager) (id : String) (cleanup : Nat) :
    HoverPlayManager × Bool :=
  if id ∈ s.activeAnimations then (s, false)
  else
    let s1 :=
      if s.maxConcurrent ≤ s.activeAnimations.length then
        match s.activeAnimations.head? with
        | some oldest => if oldest ≠ "" then unregister s oldest else s
        | none => s
      else s
    ({ s1 with
        activeAnimations := s1.activeAnimations ++ [id]
        cleanupFunctions := mapSet id cleanup s1.cleanupFunctions }, true)

def getActiveCount (s : HoverPlayManager) : Nat := s.activeAnimations.length

def isActive (s : HoverPlayManager) (id : String) : Bool :=
  s.activeAnimations.contains id

/-- A sequence of `register` calls. -/
def runRegisters (s : HoverPlayManager) :
    List (String × Nat) → HoverPlayManager
  | [] => s
  | (id, c) :: ops => runRegisters (register s id c).1 ops

/-- The concrete scene of the claim: register `A`, `B`, `C`, then `D`, with
cleanup callbacks `10`–`13`. -/
def hoverScene : HoverPlayManager :=
  runRegisters initial [("A", 10), ("B", 11), ("C", 12), ("D", 13)]

end HoverPlay
namespace Pool
/-!
## Canvas Pool (`CanvasPool` in the engine module)

Reusable offscreen canvas buffers.  A buffer's pixel contents are abstracted
to a single value, `0` standing for a fully cleared surface (what
`ctx.clearRect(0, 0, width, height)` leaves and what a freshly created canvas
starts with).  `acquire` pops the most recently pooled buffer (JS
`Array.pop`) or creates a fresh one, then sets its dimensions; `release`
clears the buffer and retains it only while fewer than `maxSize` buffers are
pooled. -/

structure Buffer where
  width : Nat
  height : Nat
  /-- Abstract pixel contents; `0` = cleared. -/
  pixels : Nat
deriving Repr, DecidableEq

structure CanvasPool where
  pool : List Buffer
  maxSize : Nat
deriving Repr, DecidableEq

/-- The singleton pool as constructed: empty, `maxSize = 10`. -/
def emptyPool : CanvasPool := { pool := [], maxSize := 10 }

/-- `ctx.clearRect(0, 0, canvas.width, canvas.height)`. -/
def clearBuffer (b : Buffer) : Buffer := { b with pixels := 0 }

/-- `acquire(width, height)`: pop a pooled buffer (or create a fresh blank
one), then set its dimensions.  No clearing happens here. -/
def acquire (s : CanvasPool) (w h : Nat) : CanvasPool × Buffer :=
  match s.pool with
  | [] => (s, { width := w, height := h, pixels := 0 })
  | b :: rest => ({ s with pool := rest }, { b with width := w, height := h })

/-- `release(canvas)`: if the pool is below `maxSize`, clear the buffer and
retain it; otherwise drop it (uncleaned). -/
def release (s : CanvasPool) (b : Buffer) : CanvasPool :=
  if s.pool.length < s.maxSize then { s with pool := clearBuffer b :: s.pool }
  else s

inductive PoolOp
  | acq (w h : Nat)
  | rel (b : Buffer)

/-- A client session: any interleaving of `acquire` and `release` calls. -/
def runPool (s : CanvasPool) : List PoolOp → CanvasPool
  | [] => s
  | .acq w h :: ops => runPool (acquire s w h).1 ops
  | .rel b :: ops => runPool (release s b) ops

end Pool
namespace Engine
open AssocMap

/-!
## Canvas Engine (`CanvasEngine` in the engine module)

Timestamps are exact rationals.  The active animation module is external
code: its `init`/`update`/`render`/`cleanup` calls receive an
`AnimationContext` but do not alter engine state, so only its presence and
whether it has a `cleanup` member matter to the engine.  `getContext` is the
one `throw` site of the class (besides the constructor); operations that can
reach it return an `OpResult`: the fields the object holds afterwards plus
the thrown error, if any.  The drawing-surface and parameter-map handles the
real context carries are omitted: only the fields the specification speaks
about (dimensions, time, deltaTime, fps, isPlaying, speed) are kept. -/

inductive ParamValue
  | num (q : ℚ)
  | str (s : String)
  | flag (b : Bool)
deriving Repr, DecidableEq

structure Anim where
  name : String
  hasCleanup : Bool
deriving Repr, DecidableEq

structure AnimationContext where
  width : Nat
  height : Nat
  time : ℚ
  deltaTime : ℚ
  fps : ℤ
  isPlaying : Bool
  speed : ℚ
deriving Repr, DecidableEq

structure CanvasEngine where
  /-- `this.ctx !== null` — set to `false` only by `destroy`. -/
  ctxAlive : Bool
  animation : Option Anim
  isPlaying : Bool
  startTime : ℚ
  lastTime : ℚ
  deltaTime : ℚ
  fps : ℤ
  frameCount : Nat
  fpsUpdateTime : ℚ
  speed : ℚ
  params : List (String × ParamValue)
  isLowEndDevice : Bool
  targetFPS : Nat
  fpsThrottle : ℚ
  lastFrameTime : ℚ
  /-- Whether the `ResizeObserver` is connected (disconnected by `destroy`). -/
  resizeObserver : Bool
  width : Nat
  height : Nat
  /-- `this.animationFrameId !== null`. -/
  frameRequested : Bool
deriving Repr, DecidableEq

/-- The state after a successful constructor run (`canvas.getContext`
succeeded; dimensions from `setupCanvas`).  A low-end device gets
`targetFPS = 30` and `fpsThrottle = 1000/30` ms; otherwise 60 / no throttle. -/
def construct (lowEnd : Bool) (w h : Nat) : CanvasEngine :=
  { ctxAlive := true, animation := none, isPlaying := false
    startTime := 0, lastTime := 0, deltaTime := 0, fps := 0, frameCount := 0
    fpsUpdateTime := 0, speed := 1, params := []
    isLowEndDevice := lowEnd
    targetFPS := if lowEnd then 30 else 60
    fpsThrottle := if lowEnd then 1000 / 30 else 0
    lastFrameTime := 0, resizeObserver := true, width := w, height := h
    frameRequested := false }

/-- The fields of the `AnimationContext` record `getContext` builds
(`performance.now()` coincides with the current frame timestamp `now`). -/
def mkContext (s : CanvasEngine) (now : ℚ) : AnimationContext :=
  { width := s.width, height := s.height
    time := (now - s.startTime) * s.speed
    deltaTime := s.deltaTime * s.speed
    fps := s.fps, isPlaying := s.isPlaying, speed := s.speed }

/-- `getContext`: throws when the context reference has been nulled by
`destroy`. -/
def getContext (s : CanvasEngine) (now : ℚ) : Except String AnimationContext :=
  if s.ctxAlive then .ok (mkContext s now)
  else .error "Canvas context not initialized"

def pause (s : CanvasEngine) : CanvasEngine :=
  { s with isPlaying := false, frameRequested := false }

def stop (s : CanvasEngine) : CanvasEngine :=
  { pause s with startTime := 0, lastTime := 0, deltaTime := 0 }

def play (s : CanvasEngine) (now : ℚ) : CanvasEngine :=
  if s.isPlaying then s
  else
    { s with isPlaying := true, startTime := now, lastTime := 0
             frameCount := 0, fpsUpdateTime := now, frameRequested := true }

def setSpeed (s : CanvasEngine) (x : ℚ) : CanvasEngine :=
  { s with speed := max (1 / 4) (min 2 x) }

def setParameters (s : CanvasEngine) (ps : List (String × ParamValue)) :
    CanvasEngine :=
  { s with params := ps.foldl (fun acc p => mapSet p.1 p.2 acc) s.params }

def getFPS (s : CanvasEngine) : ℤ := s.fps

/-- The `if (this.animation?.cleanup) this.animation.cleanup(this.getContext())`
step shared by `loadAnimation` and `destroy`. -/
def cleanupStep (s : CanvasEngine) (now : ℚ) : Except String Unit :=
  match s.animation with
  | some old =>
    if old.hasCleanup then (getContext s now).map (fun _ => ()) else .ok ()
  | none => .ok ()

/-- Result of an engine method that can throw: `state` is what the object's
fields hold afterwards — a JS exception does not roll back the assignments
already executed before the throw — and `thrown` is the propagated error, if
any. -/
structure OpResult where
  state : CanvasEngine
  thrown : Option String
deriving Repr, DecidableEq

/-- `loadAnimation`: stop, cleanup the previous module (if it has a cleanup),
then `this.animation = animation` — the assignment executes *before* the
`init(this.getContext())` call, so when `getContext` throws on a destroyed
engine the new module is nevertheless left installed. -/
def loadAnimation (s : CanvasEngine) (a : Anim) (now : ℚ) : OpResult :=
  let s1 := stop s
  match cleanupStep s1 now with
  | .error e => ⟨s1, some e⟩
  | .ok _ =>
    let s2 := { s1 with animation := some a }
    match getContext s2 now with
    | .error e => ⟨s2, some e⟩
    | .ok _ => ⟨s2, none⟩

/-- `restart`: stop, then (only if a module is active) re-`init` and play —
`init`'s `getContext` throws when the engine has been destroyed. -/
def restart (s : CanvasEngine) (now : ℚ) : OpResult :=
  let s1 := stop s
  match s1.animation with
  | some _ =>
    match getContext s1 now with
    | .error e => ⟨s1, some e⟩
    | .ok _ => ⟨play s1 now, none⟩
  | none => ⟨s1, none⟩

/-- `destroy`: stop, cleanup the active module (its `getContext` throws when
the context is already nulled), disconnect the resize observer, null the
module and the context. -/
def destroy (s : CanvasEngine) (now : ℚ) : OpResult :=
  let s1 := stop s
  match cleanupStep s1 now with
  | .error e => ⟨s1, some e⟩
  | .ok _ =>
    ⟨{ s1 with resizeObserver := false, animation := none
               ctxAlive := false }, none⟩

/-- The `ResizeObserver` callback: re-derive dimensions, then re-`init` the
active module (no cleanup first). -/
def resize (s : CanvasEngine) (w h : Nat) (now : ℚ) : OpResult :=
  let s1 := { s with width := w, height := h }
  match s1.animation with
  | some _ =>
    match getContext s1 now with
    | .error e => ⟨s1, some e⟩
    | .ok _ => ⟨s1, none⟩
  | none => ⟨s1, none⟩

/-- One invocation of the `requestAnimationFrame` callback at timestamp `t`.
`executed` carries the context passed to `update`/`render` when the frame is
accepted; `rearmed` records whether the callback was re-scheduled. -/
structure LoopResult where
  state : CanvasEngine
  executed : Option AnimationContext
  rearmed : Bool
deriving Repr, DecidableEq

/-- The delta-time and FPS bookkeeping of an accepted frame (source lines
"Calculate delta time" and "Calculate FPS"): the `lastTime === 0` sentinel
set by `play` makes the first accepted frame's delta zero; when at least one
second has passed since `fpsUpdateTime`, FPS is recomputed as
`Math.round(frameCount * 1000 / elapsed)` and counter and window restart. -/
def acceptFrame (s : CanvasEngine) (t : ℚ) : CanvasEngine :=
  let lastT := if s.lastTime = 0 then t else s.lastTime
  let s2 := { s with lastTime := t, deltaTime := t - lastT
                     frameCount := s.frameCount + 1 }
  if 1000 ≤ t - s2.fpsUpdateTime then
    { s2 with
        fps := round ((s2.frameCount : ℚ) * 1000 / (t - s2.fpsUpdateTime))
        frameCount := 0
        fpsUpdateTime := t }
  else s2

def animationLoop (s : CanvasEngine) (t : ℚ) : LoopResult :=
  if s.isPlaying = false ∨ s.animation = none then ⟨s, none, false⟩
  else if 0 < s.fpsThrottle ∧ t - s.lastFrameTime < s.fpsThrottle then
    ⟨{ s with frameRequested := true }, none, true⟩
  else
    let s1 := if 0 < s.fpsThrottle then { s with lastFrameTime := t } else s
    let s3 := acceptFrame s1 t
    ⟨{ s3 with frameRequested := true }, some (mkContext s3 t), true⟩

/-- Drive the frame loop through a list of timestamps; final state plus the
number of executed update/render pairs and the number of re-arms. -/
def runLoop (s : CanvasEngine) : List ℚ → CanvasEngine × Nat × Nat
  | [] => (s, 0, 0)
  | t :: ts =>
    let r := animationLoop s t
    let rest := runLoop r.state ts
    (rest.1, (if r.executed.isSome then 1 else 0) + rest.2.1,
      (if r.rearmed then 1 else 0) + rest.2.2)

/-- Final state after driving the frame loop through a list of timestamps. -/
def runState (s : CanvasEngine) : List ℚ → CanvasEngine
  | [] => s
  | t :: ts => runState (animationLoop s t).state ts

/-- The context handed to the first accepted frame, if any. -/
def firstExecuted (s : CanvasEngine) : List ℚ → Option AnimationContext
  | [] => none
  | t :: ts =>
    match (animationLoop s t).executed with
    | some c => some c
    | none => firstExecuted (animationLoop s t).state ts

/-- Engine states reachable through the public contract (plus the resize
observer and the frame loop, which the host drives).  The throwing
operations contribute the state they leave the object in whether or not
they threw — a caller that catches the exception continues using the same
object, so post-throw states are publicly reachable. -/
inductive Reachable : CanvasEngine → Prop
  | construction (lowEnd : Bool) (w h : Nat) : Reachable (construct lowEnd w h)
  | playStep {s : CanvasEngine} (now : ℚ) : Reachable s → Reachable (play s now)
  | pauseStep {s : CanvasEngine} : Reachable s → Reachable (pause s)
  | stopStep {s : CanvasEngine} : Reachable s → Reachable (stop s)
  | setSpeedStep {s : CanvasEngine} (x : ℚ) :
      Reachable s → Reachable (setSpeed s x)
  | setParametersStep {s : CanvasEngine} (ps : List (String × ParamValue)) :
      Reachable s → Reachable (setParameters s ps)
  | loadAnimationStep (s : CanvasEngine) (a : Anim) (now : ℚ) :
      Reachable s → Reachable (loadAnimation s a now).state
  | restartStep (s : CanvasEngine) (now : ℚ) :
      Reachable s → Reachable (restart s now).state
  | destroyStep (s : CanvasEngine) (now : ℚ) :
      Reachable s → Reachable (destroy s now).state
  | resizeStep (s : CanvasEngine) (w h : Nat) (now : ℚ) :
      Reachable s → s.resizeObserver = true →
      Reachable (resize s w h now).state
  | loopStep {s : CanvasEngine} (t : ℚ) :
      Reachable s → Reachable (animationLoop s t).state

/-- The state left by `destroy()` on a freshly constructed (high-end,
800×600) engine. -/
def deadEngine : CanvasEngine :=
  { construct false 800 600 with ctxAlive := false, resizeObserver := false }

/-- A module with a `cleanup` member. -/
def aCleanup : Anim := { name := "spiral", hasCleanup := true }

/-- The state left by calling `loadAnimation` (with a cleanup-bearing module)
on a destroyed engine and catching the throw: the context is dead, yet the
module is installed, because `this.animation = animation` executed before
`init(this.getContext())` threw. -/
def zombieEngine : CanvasEngine :=
  { deadEngine with animation := some aCleanup }

/-- The pluggable module used in concrete engine scenes. -/
def a0 : Anim := { name := "spiral", hasCleanup := false }

/-- A freshly constructed high-end engine with a module installed. -/
def engPlain : CanvasEngine :=
  { construct false 800 600 with animation := some a0 }

/-- The engine state one accepted frame after `play` at 0. -/
def engElapse : CanvasEngine := (animationLoop (play engPlain 0) 0).state

/-- A freshly constructed low-end engine with a module installed (target FPS
30, minimum inter-frame interval 1000/30 ms). -/
def engLow : CanvasEngine :=
  { construct true 800 600 with animation := some a0 }

/-- Ten frame-callback timestamps spaced 8 ms apart. -/
def throttleTs : List ℚ :=
  [1000, 1008, 1016, 1024, 1032, 1040, 1048, 1056, 1064, 1072]

/-- A low-end engine playing with an accepted frame stamped at 1000. -/
def engThrottled : CanvasEngine :=
  { engLow with isPlaying := true, lastFrameTime := 1000 }

end Engine
namespace AssocMap
theorem mapGet_set_self {κ β : Type} [DecidableEq κ] (k : κ) (v : β)
    (l : List (κ × β)) : mapGet k (mapSet k v l) = some v := by
  simp [mapGet, mapSet]

theorem mapGet_erase_self {κ β : Type} [DecidableEq κ] (k : κ)
    (l : List (κ × β)) : mapGet k (mapErase k l) = none := by
  induction l with
  | nil => rfl
  | cons p rest ih =>
    obtain ⟨a, b⟩ := p
    by_cases hp : a = k
    · simpa [mapErase, hp] using ih
    · simpa [mapErase, mapGet, hp, Ne.symm hp] using ih

theorem mapGet_erase_ne {κ β : Type} [DecidableEq κ] {k k' : κ}
    (l : List (κ × β)) (h : k ≠ k') : mapGet k (mapErase k' l) = mapGet k l := by
  induction l with
  | nil => rfl
  | cons p rest ih =>
    obtain ⟨a, b⟩ := p
    by_cases hp : a = k'
    · subst hp
      simpa [mapErase, mapGet, h] using ih
    · by_cases hk : k = a
      · simp [mapErase, mapGet, hp, hk]
      · simpa [mapErase, mapGet, hp, hk] using ih

theorem mapGet_set_ne {κ β : Type} [DecidableEq κ] {k k' : κ} (v : β)
    (l : List (κ × β)) (h : k ≠ k') : mapGet k (mapSet k' v l) = mapGet k l := by
  have : mapGet k (mapSet k' v l) = mapGet k (mapErase k' l) := by
    simp [mapSet, mapErase, mapGet, h]
  rw [this, mapGet_erase_ne l h]

end AssocMap
namespace Registry

open AssocMap
theorem getById_of_pending {s : RegistryState} {id : String} {p : Nat}
    (hreg : id ∈ s.entries) (hcache : mapGet id s.loadedCache = none)
    (hload : mapGet id s.loadingPromises = some p) :
    getById s id = (s, .pending p) := by
  simp [getById, hreg, hcache, hload]

theorem getByIdN_of_pending {s : RegistryState} {id : String} {p : Nat}
    (hreg : id ∈ s.entries) (hcache : mapGet id s.loadedCache = none)
    (hload : mapGet id s.loadingPromises = some p) :
    ∀ n, getByIdN s id n = (s, List.replicate n (.pending p)) := by
  intro n
  induction n with
  | zero => rfl
  | succ k ih =>
    simp [getByIdN, getById_of_pending hreg hcache hload, ih,
      List.replicate_succ]

theorem getById_fresh {s : RegistryState} {id : String}
    (hreg : id ∈ s.entries) (hcache : mapGet id s.loadedCache = none)
    (hload : mapGet id s.loadingPromises = none) :
    getById s id =
      ({ s with
          loadingPromises := mapSet id s.nextPromise s.loadingPromises
          nextPromise := s.nextPromise + 1
          loaderCalls := s.loaderCalls ++ [id] }, .pending s.nextPromise) := by
  simp [getById, hreg, hcache, hload]

/-- **C1.** For every animation id registered in the Registry, at most one
loader invocation is in flight at any time, regardless of caller concurrency:
if `n` callers invoke `getById id` concurrently (back to back on the
single-threaded event loop) before the loader settles, starting from any state
in which the id is registered but neither cached nor already loading, then the
loader is invoked exactly once, all `n` callers receive the identical pending
promise, and once the loader settles with module `m` that shared promise
delivers the same module reference `m` to every caller (which is also the
reference cached for the id). -/
theorem getById_single_flight (s : RegistryState) (id : String) (n : Nat)
    (hreg : id ∈ s.entries)
    (hcache : mapGet id s.loadedCache = none)
    (hload : mapGet id s.loadingPromises = none)
    (hn : 1 ≤ n) :
    (getByIdN s id n).1.loaderCalls.count id = s.loaderCalls.count id + 1 ∧
    (getByIdN s id n).2 = List.replicate n (.pending s.nextPromise) ∧
    ∀ m : Nat,
      mapGet s.nextPromise (settleSuccess (getByIdN s id n).1 id m).resolved
          = some (some m) ∧
      mapGet id (settleSuccess (getByIdN s id n).1 id m).loadedCache = some m := by
  obtain ⟨k, rfl⟩ : ∃ k, n = k + 1 := ⟨n - 1, (Nat.succ_pred_eq_of_pos hn).symm⟩
  have hfresh := getById_fresh hreg hcache hload
  have hload1 : mapGet id (mapSet id s.nextPromise s.loadingPromises)
      = some s.nextPromise := mapGet_set_self id s.nextPromise s.loadingPromises
  have hrest := getByIdN_of_pending (s :=
    { s with
        loadingPromises := mapSet id s.nextPromise s.loadingPromises
        nextPromise := s.nextPromise + 1
        loaderCalls := s.loaderCalls ++ [id] })
    hreg hcache hload1 k
  have hN : getByIdN s id (k + 1) =
      ({ s with
          loadingPromises := mapSet id s.nextPromise s.loadingPromises
          nextPromise := s.nextPromise + 1
          loaderCalls := s.loaderCalls ++ [id] },
        List.replicate (k + 1) (.pending s.nextPromise)) := by
    simp [getByIdN, hfresh, hrest, List.replicate_succ]
  rw [hN]
  refine ⟨by simp, rfl, ?_⟩
  intro m
  simp only [settleSuccess, hload1]
  exact ⟨mapGet_set_self _ _ _, mapGet_set_self _ _ _⟩

/-- **C3.** If a Registry loader rejects, the awaiting `getById id` caller
receives a `null` result (the shared promise resolves to `none`), the failure
is not stored in the load cache (the cache is untouched), and a subsequent
`getById id` call for the same id invokes the registered loader again — a
failed load never short-circuits a later retry. -/
theorem failed_load_not_poisoning (s : RegistryState) (id : String) (p : Nat)
    (hreg : id ∈ s.entries)
    (hcache : mapGet id s.loadedCache = none)
    (hload : mapGet id s.loadingPromises = some p) :
    mapGet p (settleFailure s id).resolved = some none ∧
    (settleFailure s id).loadedCache = s.loadedCache ∧
    (getById (settleFailure s id) id).1.loaderCalls.count id
        = s.loaderCalls.count id + 1 ∧
    (getById (settleFailure s id) id).2 = .pending s.nextPromise := by
  have h1 : settleFailure s id =
      { s with
          loadingPromises := mapErase id s.loadingPromises
          resolved := mapSet p none s.resolved } := by
    simp [settleFailure, hload]
  rw [h1]
  have hfresh := getById_fresh (s :=
    { s with
        loadingPromises := mapErase id s.loadingPromises
        resolved := mapSet p none s.resolved })
    hreg hcache (mapGet_erase_self id s.loadingPromises)
  rw [hfresh]
  exact ⟨mapGet_set_self _ _ _, rfl, by simp, rfl⟩

/-- **C10.** Calling `getById id` for an id that has never been registered
resolves to `null` immediately (result `.unregistered`), invokes no loader,
and leaves the Registry's load cache and in-flight map — indeed the whole
registry state — unchanged. -/
theorem getById_unregistered (s : RegistryState) (id : String)
    (h : id ∉ s.entries) :
    getById s id = (s, .unregistered) := by
  simp [getById, h]

theorem getById_single_flight_witness :
    (getByIdN regW "spiral" 2).1.loaderCalls.count "spiral"
        = regW.loaderCalls.count "spiral" + 1 ∧
    (getByIdN regW "spiral" 2).2 = List.replicate 2 (.pending regW.nextPromise) ∧
    mapGet regW.nextPromise
        (settleSuccess (getByIdN regW "spiral" 2).1 "spiral" 7).resolved
        = some (some 7) ∧
    mapGet "spiral"
        (settleSuccess (getByIdN regW "spiral" 2).1 "spiral" 7).loadedCache
        = some 7 := by
  have h := getById_single_flight regW "spiral" 2 (by decide) rfl rfl (by decide)
  exact ⟨h.1, h.2.1, (h.2.2 7).1, (h.2.2 7).2⟩

theorem failed_load_not_poisoning_witness :
    mapGet 0 (settleFailure regW3 "spiral").resolved = some none ∧
    (settleFailure regW3 "spiral").loadedCache = regW3.loadedCache ∧
    (getById (settleFailure regW3 "spiral") "spiral").1.loaderCalls.count "spiral"
        = regW3.loaderCalls.count "spiral" + 1 ∧
    (getById (settleFailure regW3 "spiral") "spiral").2
        = .pending regW3.nextPromise :=
  failed_load_not_poisoning regW3 "spiral" 0 (by decide) rfl rfl

theorem getById_unregistered_witness :
    getById regW "vortex" = (regW, .unregistered) :=
  getById_unregistered regW "vortex" (by decide)

theorem sublist_insertSorted {α : Type} (cmp : α → α → Int) (x : α)
    (l : List α) : List.Sublist l (insertSorted cmp x l) := by
  induction l with
  | nil => exact List.nil_sublist _
  | cons y t ih =>
    by_cases h : cmp x y ≤ 0
    · simp only [insertSorted, if_pos h]
      exact List.Sublist.cons x (List.Sublist.refl _)
    · simp only [insertSorted, if_neg h]
      exact List.Sublist.cons₂ y ih

theorem pair_sublist_insertSorted {α : Type} {cmp : α → α → Int} {x y : α}
    {t : List α} (h0 : cmp x y = 0) (hy : y ∈ t) :
    List.Sublist [x, y] (insertSorted cmp x t) := by
  induction t with
  | nil => cases hy
  | cons z t ih =>
    by_cases h : cmp x z ≤ 0
    · simp only [insertSorted, if_pos h]
      exact List.Sublist.cons₂ x (List.singleton_sublist.mpr hy)
    · simp only [insertSorted, if_neg h]
      rcases List.mem_cons.mp hy with hz | hmem
      · rw [hz] at h0
        exact absurd h0.le h
      · exact List.Sublist.cons z (ih hmem)

theorem insertSorted_perm {α : Type} (cmp : α → α → Int) (x : α)
    (l : List α) : List.Perm (insertSorted cmp x l) (x :: l) := by
  induction l with
  | nil => exact List.Perm.refl _
  | cons y t ih =>
    by_cases h : cmp x y ≤ 0
    · simp [insertSorted, h]
    · simp only [insertSorted, if_neg h]
      exact (ih.cons y).trans (List.Perm.swap x y t)

theorem stableSort_perm {α : Type} (cmp : α → α → Int) (l : List α) :
    List.Perm (stableSort cmp l) l := by
  induction l with
  | nil => exact List.Perm.refl _
  | cons x t ih =>
    exact (insertSorted_perm cmp x (stableSort cmp t)).trans (ih.cons x)

/-- Stability: a pair of comparator-equal elements keeps its relative order,
for every comparator (in particular for the inconsistent date comparators
with missing fields). -/
theorem stableSort_stable {α : Type} {cmp : α → α → Int} {x y : α}
    {l : List α} (h0 : cmp x y = 0) (h : List.Sublist [x, y] l) :
    List.Sublist [x, y] (stableSort cmp l) := by
  induction l with
  | nil => cases h
  | cons a t ih =>
    cases h with
    | cons _ h1 =>
      exact (ih h1).trans (sublist_insertSorted cmp a (stableSort cmp t))
    | cons₂ _ h1 =>
      have hy : y ∈ stableSort cmp t :=
        (stableSort_perm cmp t).mem_iff.mpr (List.singleton_sublist.mp h1)
      exact pair_sublist_insertSorted h0 hy

/-- **C8.** Registry sort by difficulty uses the fixed ordinal order
easy < medium < hard, not lexicographic order: sorting
`[hard, easy, medium]` ascending yields `[easy, medium, hard]`; the sort is
stable for every sort key and order (comparator-equal pairs keep their
relative order); and for `createdAt`/`updatedAt` sorts, any pair of entries
where either entry lacks the compared field compares as equal (so the sort
neither crashes nor forces a placement between them). -/
theorem sort_difficulty_ordinal_stable :
    (sortAnimations [metaHard, metaEasy, metaMedium] .difficulty .asc).map
        AnimationMetadata.difficulty = [.easy, .medium, .hard] ∧
    (∀ (k : SortKey) (o : SortOrder) (x y : AnimationMetadata)
        (l : List AnimationMetadata),
        orderedComparison k o x y = 0 → List.Sublist [x, y] l →
        List.Sublist [x, y] (sortAnimations l k o)) ∧
    (∀ a b : AnimationMetadata,
        a.createdAt = none ∨ b.createdAt = none →
        comparison .createdAt a b = 0) ∧
    (∀ a b : AnimationMetadata,
        a.updatedAt = none ∨ b.updatedAt = none →
        comparison .updatedAt a b = 0) := by
  refine ⟨by decide, fun k o x y l h0 h => stableSort_stable h0 h, ?_, ?_⟩
  · rintro a b (h | h)
    · cases hb : b.createdAt <;> simp [comparison, h, hb]
    · cases ha : a.createdAt <;> simp [comparison, h, ha]
  · rintro a b (h | h)
    · cases hb : b.updatedAt <;> simp [comparison, h, hb]
    · cases ha : a.updatedAt <;> simp [comparison, h, ha]

theorem sort_difficulty_ordinal_stable_witness :
    List.Sublist [metaEasy2, metaEasy]
        (sortAnimations [metaHard, metaEasy2, metaEasy] .difficulty .asc) ∧
    comparison .createdAt metaEasy metaHard = 0 ∧
    comparison .updatedAt metaEasy2 metaHard = 0 := by
  refine ⟨?_, ?_, ?_⟩
  · exact sort_difficulty_ordinal_stable.2.1 .difficulty .asc metaEasy2 metaEasy
      [metaHard, metaEasy2, metaEasy] (by decide)
      (List.Sublist.cons metaHard (List.Sublist.refl _))
  · exact sort_difficulty_ordinal_stable.2.2.1 metaEasy metaHard (Or.inl rfl)
  · exact sort_difficulty_ordinal_stable.2.2.2 metaEasy2 metaHard (Or.inl rfl)

end Registry
namespace HoverPlay

open AssocMap
theorem unregister_active (s : HoverPlayManager) (id : String) :
    (unregister s id).activeAnimations
      = s.activeAnimations.filter (fun a => a ≠ id) := by
  unfold unregister
  cases mapGet id s.cleanupFunctions <;> rfl

theorem unregister_max (s : HoverPlayManager) (id : String) :
    (unregister s id).maxConcurrent = s.maxConcurrent := by
  unfold unregister
  cases mapGet id s.cleanupFunctions <;> rfl

theorem length_filter_ne_lt {α : Type} [DecidableEq α] {l : List α} {a : α}
    (h : a ∈ l) :
    (l.filter (fun x => x ≠ a)).length < l.length := by
  induction l with
  | nil => cases h
  | cons b t ih =>
    by_cases hb : b = a
    · subst hb
      have hstep : List.filter (fun x => x ≠ b) (b :: t)
          = List.filter (fun x => x ≠ b) t := by simp
      rw [hstep]
      have hle := List.length_filter_le (fun x => decide (x ≠ b)) t
      simp only [List.length_cons]
      omega
    · have h1 : a ∈ t := by
        rcases List.mem_cons.mp h with h1 | h1
        · exact absurd h1.symm hb
        · exact h1
      have hstep : List.filter (fun x => x ≠ a) (b :: t)
          = b :: List.filter (fun x => x ≠ a) t := by simp [hb]
      rw [hstep]
      simpa using Nat.succ_lt_succ (ih h1)

theorem register_bound (s : HoverPlayManager) (id : String) (c : Nat)
    (hid : id ≠ "")
    (hlen : s.activeAnimations.length ≤ s.maxConcurrent)
    (hblank : "" ∉ s.activeAnimations)
    (hmax : 1 ≤ s.maxConcurrent) :
    (register s id c).1.activeAnimations.length ≤ s.maxConcurrent ∧
    "" ∉ (register s id c).1.activeAnimations ∧
    (register s id c).1.maxConcurrent = s.maxConcurrent := by
  by_cases hmem : id ∈ s.activeAnimations
  · simp [register, hmem, hlen, hblank]
  · simp only [register, if_neg hmem]
    by_cases hfull : s.maxConcurrent ≤ s.activeAnimations.length
    · have hlen' : s.activeAnimations.length = s.maxConcurrent :=
        le_antisymm hlen hfull
      have hne : s.activeAnimations ≠ [] := by
        intro hnil
        rw [hnil] at hlen'
        simp at hlen'
        omega
      obtain ⟨a, rest, hact⟩ := List.exists_cons_of_ne_nil hne
      have hahd : s.activeAnimations.head? = some a := by rw [hact]; rfl
      have hamem : a ∈ s.activeAnimations := by rw [hact]; exact .head rest
      have hane : a ≠ "" := fun hh => hblank (hh ▸ hamem)
      simp only [if_pos hfull, hahd, if_pos hane]
      have hfl : (s.activeAnimations.filter (fun x => x ≠ a)).length
          < s.activeAnimations.length := length_filter_ne_lt hamem
      refine ⟨?_, ?_, unregister_max s a⟩
      · rw [unregister_active]
        simp only [List.length_append, List.length_cons, List.length_nil]
        omega
      · rw [unregister_active]
        intro hin
        rcases List.mem_append.mp hin with hin | hin
        · exact hblank (List.mem_of_mem_filter hin)
        · exact hid (List.mem_singleton.mp hin).symm
    · simp only [if_neg hfull]
      refine ⟨?_, ?_, by simp⟩
      · simp only [List.length_append, List.length_cons, List.length_nil]
        omega
      · intro hin
        rcases List.mem_append.mp hin with hin | hin
        · exact hblank hin
        · exact hid (List.mem_singleton.mp hin).symm

theorem runRegisters_bound (ops : List (String × Nat))
    (s : HoverPlayManager)
    (hne : ∀ p ∈ ops, p.1 ≠ "")
    (hlen : s.activeAnimations.length ≤ s.maxConcurrent)
    (hblank : "" ∉ s.activeAnimations)
    (hmax : 1 ≤ s.maxConcurrent) :
    (runRegisters s ops).activeAnimations.length
      ≤ s.maxConcurrent := by
  induction ops generalizing s with
  | nil => exact hlen
  | cons p ops ih =>
    obtain ⟨id, c⟩ := p
    have hid : id ≠ "" := hne (id, c) (.head ops)
    have hb := register_bound s id c hid hlen hblank hmax
    have hrec := ih (register s id c).1
      (fun q hq => hne q (.tail _ hq))
      (hb.2.2 ▸ hb.1) hb.2.1 (hb.2.2 ▸ hmax)
    simpa [runRegisters, hb.2.2] using hrec

/-- **C2 counterexample.** The claim fails as stated: over the sequence of
`register` calls with the four distinct ids `""`, `"B"`, `"C"`, `"D"`,
`getActiveCount` reaches 4 > 3 — the `if (oldestId)` truthiness guard skips
eviction when the oldest active id is the empty string. -/
theorem hover_bound_counterexample :
    ["", "B", "C", "D"].Nodup ∧
    getActiveCount
        (runRegisters initial [("", 0), ("B", 1), ("C", 2), ("D", 3)]) = 4 := by
  constructor
  · decide
  · rfl

/-- **C2 (amended).** For the Hover-Play Manager with the default maximum
concurrency of 3: over any sequence of `register` calls with distinct
*non-empty* ids, `getActiveCount` never exceeds 3 (when the oldest active id
is the empty string the truthiness guard skips eviction, so empty ids are
excluded); registering ids A, B, C and then D forcibly unregisters exactly
the oldest id A — invoking A's cleanup callback exactly once at eviction
time — after which D is active, A is not, the active set is `[B, C, D]`
and the count is still 3 (pure FIFO insertion-order eviction). -/
theorem hover_fifo_bound :
    (∀ ops : List (String × Nat), (∀ p ∈ ops, p.1 ≠ "") →
        (ops.map Prod.fst).Nodup →
        getActiveCount (runRegisters initial ops) ≤ 3) ∧
    hoverScene.invoked = [10] ∧
    isActive hoverScene "D" = true ∧
    isActive hoverScene "A" = false ∧
    hoverScene.activeAnimations = ["B", "C", "D"] ∧
    getActiveCount hoverScene = 3 := by
  refine ⟨?_, by decide, by decide, by decide, by decide, by decide⟩
  intro ops hne _hnd
  exact runRegisters_bound ops initial hne (by decide) (by decide) (by decide)

theorem hover_fifo_bound_witness :
    getActiveCount
        (runRegisters initial [("A", 0), ("B", 1), ("C", 2), ("D", 3)]) ≤ 3 :=
  hover_fifo_bound.1 [("A", 0), ("B", 1), ("C", 2), ("D", 3)]
    (by decide) (by decide)

end HoverPlay
namespace Pool
theorem runPool_bound (ops : List PoolOp) (s : CanvasPool)
    (hlen : s.pool.length ≤ s.maxSize) :
    (runPool s ops).pool.length ≤ s.maxSize ∧
    (runPool s ops).maxSize = s.maxSize := by
  induction ops generalizing s with
  | nil => exact ⟨hlen, rfl⟩
  | cons op ops ih =>
    cases op with
    | acq w h =>
      have hstep : (acquire s w h).1.pool.length ≤ s.maxSize ∧
          (acquire s w h).1.maxSize = s.maxSize := by
        cases hp : s.pool with
        | nil => exact ⟨by simp [acquire, hp], by simp [acquire, hp]⟩
        | cons b rest =>
          refine ⟨?_, by simp [acquire, hp]⟩
          have : rest.length + 1 ≤ s.maxSize := by
            simpa [hp] using hlen
          simp [acquire, hp]
          omega
      have hrec := ih (acquire s w h).1 (hstep.2 ▸ hstep.1)
      simpa [runPool, hstep.2] using hrec
    | rel b =>
      have hstep : (release s b).pool.length ≤ s.maxSize ∧
          (release s b).maxSize = s.maxSize := by
        by_cases hfits : s.pool.length < s.maxSize
        · constructor
          · simp only [release, if_pos hfits, List.length_cons]
            omega
          · simp [release, hfits]
        · exact ⟨by simpa [release, hfits] using hlen,
            by simp [release, hfits]⟩
      have hrec := ih (release s b) (hstep.2 ▸ hstep.1)
      simpa [runPool, hstep.2] using hrec

/-- **C9.** For every sequence of acquire/release calls on the canvas
Resource Pool starting from the freshly constructed (empty) pool: the idle
pool size never exceeds the maximum retained-idle count of 10; `release`
clears the buffer's pixel contents before retaining it and retains it only
when the idle pool currently holds fewer than 10 buffers, otherwise the
buffer is discarded without being cleaned (the pool is unchanged and no
clearing is applied); and `acquire` never clears a pooled buffer (the popped
buffer's pixel contents are returned as they were stored). -/
theorem pool_bound_and_hygiene :
    (∀ ops : List PoolOp, (runPool emptyPool ops).pool.length ≤ 10) ∧
    (∀ (s : CanvasPool) (b : Buffer),
        (s.pool.length < s.maxSize →
          release s b = { s with pool := { b with pixels := 0 } :: s.pool }) ∧
        (¬ s.pool.length < s.maxSize → release s b = s)) ∧
    (∀ (s : CanvasPool) (b : Buffer) (rest : List Buffer) (w h : Nat),
        s.pool = b :: rest →
        (acquire s w h).2 = { b with width := w, height := h }) := by
    refine ⟨?_, ?_, ?_⟩
    · intro ops
      exact (runPool_bound ops emptyPool (by simp [emptyPool])).1
    · intro s b
      constructor
      · intro hfits
        simp [release, hfits, clearBuffer]
      · intro hfull
        simp [release, hfull]
    · intro s b rest w h hp
      simp [acquire, hp]

theorem pool_bound_and_hygiene_witness :
    (runPool emptyPool [.acq 8 8, .rel ⟨8, 8, 5⟩, .rel ⟨4, 4, 9⟩]).pool.length
        ≤ 10 ∧
    release { pool := [], maxSize := 10 } ⟨8, 8, 5⟩
        = { pool := [⟨8, 8, 0⟩], maxSize := 10 } ∧
    (acquire { pool := [⟨8, 8, 5⟩], maxSize := 10 } 4 4).2 = ⟨4, 4, 5⟩ := by
  refine ⟨pool_bound_and_hygiene.1 [.acq 8 8, .rel ⟨8, 8, 5⟩, .rel ⟨4, 4, 9⟩],
    ?_, ?_⟩
  · exact (pool_bound_and_hygiene.2.1 { pool := [], maxSize := 10 } ⟨8, 8, 5⟩).1
      (by decide)
  · exact pool_bound_and_hygiene.2.2 { pool := [⟨8, 8, 5⟩], maxSize := 10 }
      ⟨8, 8, 5⟩ [] 4 4 rfl

end Pool
namespace Engine

open AssocMap
theorem stop_ctxAlive (s : CanvasEngine) : (stop s).ctxAlive = s.ctxAlive := rfl

theorem stop_animation (s : CanvasEngine) :
    (stop s).animation = s.animation := rfl

theorem stop_resizeObserver (s : CanvasEngine) :
    (stop s).resizeObserver = s.resizeObserver := rfl

theorem play_fields (s : CanvasEngine) (now : ℚ) :
    (play s now).ctxAlive = s.ctxAlive ∧
    (play s now).animation = s.animation ∧
    (play s now).resizeObserver = s.resizeObserver := by
  unfold play
  split <;> exact ⟨rfl, rfl, rfl⟩

theorem acceptFrame_fields (s : CanvasEngine) (t : ℚ) :
    (acceptFrame s t).ctxAlive = s.ctxAlive ∧
    (acceptFrame s t).animation = s.animation ∧
    (acceptFrame s t).resizeObserver = s.resizeObserver ∧
    (acceptFrame s t).speed = s.speed ∧
    (acceptFrame s t).deltaTime
        = t - (if s.lastTime = 0 then t else s.lastTime) := by
  simp only [acceptFrame]
  split <;> exact ⟨rfl, rfl, rfl, rfl, rfl⟩

theorem animationLoop_fields (s : CanvasEngine) (t : ℚ) :
    (animationLoop s t).state.ctxAlive = s.ctxAlive ∧
    (animationLoop s t).state.animation = s.animation ∧
    (animationLoop s t).state.resizeObserver = s.resizeObserver := by
  unfold animationLoop
  split
  · exact ⟨rfl, rfl, rfl⟩
  · split
    · exact ⟨rfl, rfl, rfl⟩
    · by_cases h3 : 0 < s.fpsThrottle
      · simp only [if_pos h3]
        have hf := acceptFrame_fields { s with lastFrameTime := t } t
        exact ⟨hf.1, hf.2.1, hf.2.2.1⟩
      · simp only [if_neg h3]
        have hf := acceptFrame_fields s t
        exact ⟨hf.1, hf.2.1, hf.2.2.1⟩

theorem cleanupStep_ok_of_alive {s : CanvasEngine} (now : ℚ)
    (h : s.ctxAlive = true) : cleanupStep s now = .ok () := by
  unfold cleanupStep
  cases s.animation with
  | none => rfl
  | some old =>
    cases old.hasCleanup <;> simp [getContext, h, Except.map]

theorem cleanupStep_ok_of_no_animation {s : CanvasEngine} (now : ℚ)
    (h : s.animation = none) : cleanupStep s now = .ok () := by
  unfold cleanupStep
  rw [h]

theorem cleanupStep_of_no_cleanup {s : CanvasEngine} (now : ℚ) {old : Anim}
    (hsa : s.animation = some old) (hc : old.hasCleanup = false) :
    cleanupStep s now = .ok () := by
  simp [cleanupStep, hsa, hc]

theorem cleanupStep_of_dead_cleanup {s : CanvasEngine} (now : ℚ) {old : Anim}
    (hsa : s.animation = some old) (hc : old.hasCleanup = true)
    (hal : s.ctxAlive = false) :
    cleanupStep s now = .error "Canvas context not initialized" := by
  simp [cleanupStep, hsa, hc, getContext, hal, Except.map]

theorem loadAnimation_of_alive {s : CanvasEngine} (a : Anim) (now : ℚ)
    (hal : s.ctxAlive = true) :
    loadAnimation s a now = ⟨{ stop s with animation := some a }, none⟩ := by
  simp only [loadAnimation]
  rw [cleanupStep_ok_of_alive now (show (stop s).ctxAlive = true from hal)]
  rw [show getContext { stop s with animation := some a } now
      = .ok (mkContext { stop s with animation := some a } now) from by
        simp [getContext, stop, pause, hal]]

theorem loadAnimation_throw_of_dead {s : CanvasEngine} (a : Anim) (now : ℚ)
    (hal : s.ctxAlive = false) :
    (loadAnimation s a now).thrown ≠ none := by
  simp only [loadAnimation]
  cases hcs : cleanupStep (stop s) now with
  | error e => simp
  | ok u =>
    rw [show getContext { stop s with animation := some a } now
        = .error "Canvas context not initialized" from by
          simp [getContext, stop, pause, hal]]
    simp

theorem restart_of_alive {s : CanvasEngine} (now : ℚ)
    (hal : s.ctxAlive = true) : (restart s now).thrown = none := by
  simp only [restart]
  cases hsa : (stop s).animation with
  | none => rfl
  | some a1 =>
    rw [show getContext (stop s) now = .ok (mkContext (stop s) now) from by
      simp [getContext, stop_ctxAlive, hal]]

theorem restart_dead_throw_iff {s : CanvasEngine} (now : ℚ)
    (hal : s.ctxAlive = false) :
    (restart s now).thrown ≠ none ↔ s.animation ≠ none := by
  simp only [restart]
  cases hsa : s.animation with
  | none =>
    rw [show (stop s).animation = none from hsa]
    simp [hsa]
  | some a1 =>
    rw [show (stop s).animation = some a1 from hsa]
    rw [show getContext (stop s) now
        = .error "Canvas context not initialized" from by
          simp [getContext, stop_ctxAlive, hal]]
    simp [hsa]

theorem destroy_of_alive {s : CanvasEngine} (now : ℚ)
    (hal : s.ctxAlive = true) : (destroy s now).thrown = none := by
  simp only [destroy]
  rw [cleanupStep_ok_of_alive now (show (stop s).ctxAlive = true from hal)]

theorem destroy_dead_throw_iff {s : CanvasEngine} (now : ℚ)
    (hal : s.ctxAlive = false) :
    (destroy s now).thrown ≠ none ↔
      ∃ old, s.animation = some old ∧ old.hasCleanup = true := by
  simp only [destroy]
  cases hsa : s.animation with
  | none =>
    rw [cleanupStep_ok_of_no_animation now
      (show (stop s).animation = none from hsa)]
    simp [hsa]
  | some a1 =>
    cases hc : a1.hasCleanup with
    | false =>
      rw [cleanupStep_of_no_cleanup now
        (show (stop s).animation = some a1 from hsa) hc]
      simp [hsa, hc]
    | true =>
      rw [cleanupStep_of_dead_cleanup now
        (show (stop s).animation = some a1 from hsa) hc
        (show (stop s).ctxAlive = false from hal)]
      simp [hsa, hc]

/-- **C4 counterexample.** The claim fails as stated, and not only for
`loadAnimation`: `destroy()` on a fresh engine leaves the reachable state
`deadEngine`; `loadAnimation` there throws "Canvas context not initialized",
but — because `this.animation = animation` executes before
`init(this.getContext())` throws — it leaves the reachable state
`zombieEngine` with a dead context and the module installed; on that state
`restart()` throws, and `destroy()` throws as well since the installed
module has a `cleanup`. -/
theorem loadAnimation_after_destroy_throws :
    (destroy (construct false 800 600) 0).thrown = none ∧
    (destroy (construct false 800 600) 0).state = deadEngine ∧
    Reachable deadEngine ∧
    (loadAnimation deadEngine aCleanup 0).thrown
        = some "Canvas context not initialized" ∧
    (loadAnimation deadEngine aCleanup 0).state = zombieEngine ∧
    Reachable zombieEngine ∧
    (restart zombieEngine 0).thrown = some "Canvas context not initialized" ∧
    (destroy zombieEngine 0).thrown = some "Canvas context not initialized"
    := by
  refine ⟨rfl, rfl, ?_, rfl, rfl, ?_, rfl, rfl⟩
  · exact show Reachable deadEngine from
      Reachable.destroyStep _ 0 (Reachable.construction false 800 600)
  · exact show Reachable zombieEngine from
      Reachable.loadAnimationStep deadEngine aCleanup 0
        (Reachable.destroyStep _ 0 (Reachable.construction false 800 600))

/-- **C4 (amended).** For every engine state reachable through the public
contract: while the drawing context is alive, every public operation other
than construction is total — `play`, `pause`, `stop`, `setSpeed`,
`setParameters` and `getFPS` contain no throw site at all (they are embedded
as plain total functions) and `destroy`, `restart` and `loadAnimation` do
not throw either.  After `destroy()` has nulled the context, the
context-using operations throw: `loadAnimation` always throws on such a
state (though it may still install the module before throwing), `restart`
throws exactly when a module is installed, and `destroy` throws exactly when
the installed module has a `cleanup` member — and states of the latter two
kinds are publicly reachable by invoking `loadAnimation` after `destroy()`
and catching the exception. -/
theorem engine_public_ops_total (s : CanvasEngine) (_h : Reachable s)
    (now : ℚ) (a : Anim) :
    (s.ctxAlive = true →
      (destroy s now).thrown = none ∧
      (restart s now).thrown = none ∧
      (loadAnimation s a now).thrown = none) ∧
    (s.ctxAlive = false →
      (loadAnimation s a now).thrown ≠ none ∧
      ((restart s now).thrown ≠ none ↔ s.animation ≠ none) ∧
      ((destroy s now).thrown ≠ none ↔
        ∃ old, s.animation = some old ∧ old.hasCleanup = true)) := by
  constructor
  · intro hal
    exact ⟨destroy_of_alive now hal, restart_of_alive now hal,
      by rw [loadAnimation_of_alive a now hal]⟩
  · intro hal
    exact ⟨loadAnimation_throw_of_dead a now hal,
      restart_dead_throw_iff now hal, destroy_dead_throw_iff now hal⟩

theorem engine_public_ops_total_witness :
    (destroy (construct false 800 600) 0).thrown = none ∧
    (restart (construct false 800 600) 0).thrown = none ∧
    (loadAnimation (construct false 800 600) aCleanup 0).thrown = none ∧
    (loadAnimation zombieEngine aCleanup 0).thrown ≠ none ∧
    ((restart zombieEngine 0).thrown ≠ none ↔
      zombieEngine.animation ≠ none) ∧
    ((destroy zombieEngine 0).thrown ≠ none ↔
      ∃ old, zombieEngine.animation = some old ∧ old.hasCleanup = true)
    := by
  have h1 := engine_public_ops_total (construct false 800 600)
    (Reachable.construction false 800 600) 0 aCleanup
  have hz : Reachable zombieEngine :=
    show Reachable zombieEngine from
      Reachable.loadAnimationStep deadEngine aCleanup 0
        (Reachable.destroyStep _ 0 (Reachable.construction false 800 600))
  have h2 := engine_public_ops_total zombieEngine hz 0 aCleanup
  obtain ⟨ha, hb, hc⟩ := h1.1 rfl
  obtain ⟨hd, he, hf⟩ := h2.2 rfl
  exact ⟨ha, hb, hc, hd, he, hf⟩

theorem animationLoop_executed_eq (s : CanvasEngine) (t : ℚ) :
    (animationLoop s t).executed =
      if s.isPlaying = false ∨ s.animation = none then none
      else if 0 < s.fpsThrottle ∧ t - s.lastFrameTime < s.fpsThrottle then none
      else some (mkContext (acceptFrame
        (if 0 < s.fpsThrottle then { s with lastFrameTime := t } else s) t) t)
    := by
  unfold animationLoop
  split
  · rfl
  · split <;> rfl

theorem animationLoop_state_eq (s : CanvasEngine) (t : ℚ) :
    (animationLoop s t).state =
      if s.isPlaying = false ∨ s.animation = none then s
      else if 0 < s.fpsThrottle ∧ t - s.lastFrameTime < s.fpsThrottle then
        { s with frameRequested := true }
      else { acceptFrame
        (if 0 < s.fpsThrottle then { s with lastFrameTime := t } else s) t
        with frameRequested := true } := by
  unfold animationLoop
  split
  · rfl
  · split <;> rfl

theorem animationLoop_rearmed_eq (s : CanvasEngine) (t : ℚ) :
    (animationLoop s t).rearmed =
      if s.isPlaying = false ∨ s.animation = none then false else true := by
  unfold animationLoop
  split
  · rfl
  · split <;> rfl

theorem acceptFrame_deltaTime_of_sentinel {s : CanvasEngine} {t : ℚ}
    (h0 : s.lastTime = 0) : (acceptFrame s t).deltaTime = 0 := by
  rw [(acceptFrame_fields s t).2.2.2.2, if_pos h0, sub_self]

theorem animationLoop_executed_deltaTime {s : CanvasEngine} {t : ℚ}
    (h0 : s.lastTime = 0) {c : AnimationContext}
    (hc : (animationLoop s t).executed = some c) : c.deltaTime = 0 := by
  rw [animationLoop_executed_eq] at hc
  by_cases h1 : s.isPlaying = false ∨ s.animation = none
  · rw [if_pos h1] at hc; cases hc
  · rw [if_neg h1] at hc
    by_cases h2 : 0 < s.fpsThrottle ∧ t - s.lastFrameTime < s.fpsThrottle
    · rw [if_pos h2] at hc; cases hc
    · rw [if_neg h2] at hc
      injection hc with hc2
      subst hc2
      by_cases h3 : 0 < s.fpsThrottle
      · rw [if_pos h3]
        show (acceptFrame { s with lastFrameTime := t } t).deltaTime
            * (acceptFrame { s with lastFrameTime := t } t).speed = 0
        rw [acceptFrame_deltaTime_of_sentinel
          (show ({ s with lastFrameTime := t } : CanvasEngine).lastTime = 0
            from h0), zero_mul]
      · rw [if_neg h3]
        show (acceptFrame s t).deltaTime * (acceptFrame s t).speed = 0
        rw [acceptFrame_deltaTime_of_sentinel h0, zero_mul]

theorem animationLoop_not_executed_lastTime {s : CanvasEngine} {t : ℚ}
    (hc : (animationLoop s t).executed = none) :
    (animationLoop s t).state.lastTime = s.lastTime := by
  rw [animationLoop_executed_eq] at hc
  rw [animationLoop_state_eq]
  by_cases h1 : s.isPlaying = false ∨ s.animation = none
  · rw [if_pos h1]
  · rw [if_neg h1] at hc ⊢
    by_cases h2 : 0 < s.fpsThrottle ∧ t - s.lastFrameTime < s.fpsThrottle
    · rw [if_pos h2]
    · rw [if_neg h2] at hc; cases hc

theorem firstExecuted_deltaTime_zero :
    ∀ (ts : List ℚ) (s : CanvasEngine) (c : AnimationContext),
      s.lastTime = 0 → firstExecuted s ts = some c → c.deltaTime = 0 := by
  intro ts
  induction ts with
  | nil =>
    intro s c h0 hc
    simp [firstExecuted] at hc
  | cons t ts ih =>
    intro s c h0 hc
    unfold firstExecuted at hc
    cases hex : (animationLoop s t).executed with
    | some c2 =>
      rw [hex] at hc
      injection hc with hc2
      subst hc2
      exact animationLoop_executed_deltaTime h0 hex
    | none =>
      rw [hex] at hc
      exact ih _ _ ((animationLoop_not_executed_lastTime hex).trans h0) hc

/-- **C5.** Immediately after `play()` — the `play` call that actually starts
playback on a non-playing engine — for every prior engine history, the first
executed tick of the frame loop (over any sequence of frame timestamps,
dropped frames included) builds an `AnimationContext` whose `deltaTime` is 0:
`play` resets `lastTime` to the 0 sentinel, dropped frames leave it
untouched, and the first accepted frame therefore computes a zero delta. -/
theorem first_frame_deltaTime_zero (s : CanvasEngine) (now : ℚ)
    (h : s.isPlaying = false) (ts : List ℚ) (c : AnimationContext)
    (hc : firstExecuted (play s now) ts = some c) :
    c.deltaTime = 0 :=
  firstExecuted_deltaTime_zero ts (play s now) c (by simp [play, h]) hc

theorem first_frame_deltaTime_zero_witness :
    ({ width := 800, height := 600, time := 2, deltaTime := 0, fps := 0
       isPlaying := true, speed := 1 } : AnimationContext).deltaTime = 0 :=
  first_frame_deltaTime_zero engPlain 5 rfl [7]
    { width := 800, height := 600, time := 2, deltaTime := 0, fps := 0
      isPlaying := true, speed := 1 } (by decide)

theorem acceptFrame_no_elapse {s : CanvasEngine} {t : ℚ}
    (hw : t - s.fpsUpdateTime < 1000) :
    (acceptFrame s t).fps = s.fps ∧
    (acceptFrame s t).fpsUpdateTime = s.fpsUpdateTime := by
  simp only [acceptFrame]
  split
  · next hcond => exact absurd hcond (not_le.mpr hw)
  · exact ⟨rfl, rfl⟩

theorem acceptFrame_elapse {s : CanvasEngine} {t : ℚ}
    (hw : 1000 ≤ t - s.fpsUpdateTime) :
    (acceptFrame s t).fps
        = round (((s.frameCount + 1 : ℕ) : ℚ) * 1000 / (t - s.fpsUpdateTime)) ∧
    (acceptFrame s t).frameCount = 0 ∧
    (acceptFrame s t).fpsUpdateTime = t := by
  simp only [acceptFrame]
  split
  · exact ⟨rfl, rfl, rfl⟩
  · next hcond => exact absurd hw hcond

theorem animationLoop_no_elapse {s : CanvasEngine} {t : ℚ}
    (hw : t - s.fpsUpdateTime < 1000) :
    (animationLoop s t).state.fps = s.fps ∧
    (animationLoop s t).state.fpsUpdateTime = s.fpsUpdateTime := by
  rw [animationLoop_state_eq]
  by_cases h1 : s.isPlaying = false ∨ s.animation = none
  · rw [if_pos h1]; exact ⟨rfl, rfl⟩
  · rw [if_neg h1]
    by_cases h2 : 0 < s.fpsThrottle ∧ t - s.lastFrameTime < s.fpsThrottle
    · rw [if_pos h2]; exact ⟨rfl, rfl⟩
    · rw [if_neg h2]
      by_cases h3 : 0 < s.fpsThrottle
      · rw [if_pos h3]
        exact acceptFrame_no_elapse
          (show t - ({ s with lastFrameTime := t } :
            CanvasEngine).fpsUpdateTime < 1000 from hw)
      · rw [if_neg h3]
        exact acceptFrame_no_elapse hw

theorem animationLoop_fps_elapse {s : CanvasEngine} {t : ℚ}
    (hp : s.isPlaying = true) (ha : s.animation ≠ none)
    (hth : ¬(0 < s.fpsThrottle ∧ t - s.lastFrameTime < s.fpsThrottle))
    (hw : 1000 ≤ t - s.fpsUpdateTime) :
    (animationLoop s t).state.fps
        = round (((s.frameCount + 1 : ℕ) : ℚ) * 1000 / (t - s.fpsUpdateTime)) ∧
    (animationLoop s t).state.frameCount = 0 ∧
    (animationLoop s t).state.fpsUpdateTime = t := by
  rw [animationLoop_state_eq]
  rw [if_neg (by simp [hp, ha]), if_neg hth]
  by_cases h3 : 0 < s.fpsThrottle
  · rw [if_pos h3]
    exact acceptFrame_elapse
      (show (1000 : ℚ) ≤ t - ({ s with lastFrameTime := t } :
        CanvasEngine).fpsUpdateTime from hw)
  · rw [if_neg h3]
    exact acceptFrame_elapse hw

theorem runState_fps_zero :
    ∀ (ts : List ℚ) (s : CanvasEngine), s.fps = 0 →
      (∀ t ∈ ts, t - s.fpsUpdateTime < 1000) →
      getFPS (runState s ts) = 0 := by
  intro ts
  induction ts with
  | nil =>
    intro s h0 _
    exact h0
  | cons t ts ih =>
    intro s h0 hlt
    have hw : t - s.fpsUpdateTime < 1000 := hlt t (.head ts)
    obtain ⟨hf, hu⟩ := animationLoop_no_elapse hw
    unfold runState
    exact ih _ (hf.trans h0) (fun u hu2 => by rw [hu]; exact hlt u (.tail _ hu2))

/-- **C6 counterexample.** The claim fails as stated, on a fresh high-end
engine with a module installed.  (1) `play` at 0, frames at 0 and 2000: at
the second frame the window has elapsed and the counter has counted 2 frames
in the window, yet the reported FPS is `Math.round(2 * 1000 / 2000) = 1`,
not the frame count 2 — the code normalizes the count to a per-second rate
over the actual window length.  (2) Continuing with `pause` and a second
`play` at 3000: `getFPS` still reports 1, not 0, before any full window has
elapsed since that `play()` — `play` does not reset the published FPS
value. -/
theorem fps_window_counterexample :
    (animationLoop (play engPlain 0) 0).state.frameCount = 1 ∧
    (animationLoop (animationLoop (play engPlain 0) 0).state 2000).state.fps
        = 1 ∧
    ((1 : ℤ) = 2 → False) ∧
    getFPS (play (pause
      (animationLoop (animationLoop (play engPlain 0) 0).state 2000).state)
      3000) = 1 ∧
    ((1 : ℤ) = 0 → False) := by
  refine ⟨by decide, by decide, by decide, by decide, by decide⟩

/-- **C6 (amended).** The engine's FPS measurement uses a rolling window of
at least one second: `getFPS()` returns 0 while no full window has yet
elapsed (in particular on a fresh engine before the first full window since
the first `play()`), and whenever a frame is accepted with the window
elapsed the reported FPS equals the frame count of that window normalized to
a per-second rate, `Math.round(frames × 1000 / windowElapsed)` — equal to
the raw frame count only when the window is exactly 1000 ms — after which
the frame counter is reset to 0 and the window start moves to the current
timestamp. -/
theorem fps_window :
    (∀ (ts : List ℚ) (s : CanvasEngine), s.fps = 0 →
        (∀ t ∈ ts, t - s.fpsUpdateTime < 1000) →
        getFPS (runState s ts) = 0) ∧
    (∀ (s : CanvasEngine) (t : ℚ), s.isPlaying = true → s.animation ≠ none →
        ¬(0 < s.fpsThrottle ∧ t - s.lastFrameTime < s.fpsThrottle) →
        1000 ≤ t - s.fpsUpdateTime →
        (animationLoop s t).state.fps
            = round (((s.frameCount + 1 : ℕ) : ℚ) * 1000
                / (t - s.fpsUpdateTime)) ∧
        (animationLoop s t).state.frameCount = 0 ∧
        (animationLoop s t).state.fpsUpdateTime = t) :=
  ⟨runState_fps_zero,
    fun _ _ hp ha hth hw => animationLoop_fps_elapse hp ha hth hw⟩

theorem fps_window_witness :
    getFPS (runState (play engPlain 0) [0, 500]) = 0 ∧
    (animationLoop engElapse 2000).state.fps
        = round (((engElapse.frameCount + 1 : ℕ) : ℚ) * 1000
            / (2000 - engElapse.fpsUpdateTime)) ∧
    (animationLoop engElapse 2000).state.frameCount = 0 ∧
    (animationLoop engElapse 2000).state.fpsUpdateTime = 2000 := by
  have h1 := fps_window.1 [0, 500] (play engPlain 0) (by decide) (by decide)
  have h2 := fps_window.2 engElapse 2000 (by decide) (by decide) (by decide)
    (by decide)
  exact ⟨h1, h2.1, h2.2.1, h2.2.2⟩

/-- **C7.** For an engine classified low-end at construction (target FPS 30,
minimum inter-frame interval 1000/30 ms): a frame callback whose timestamp is
less than the minimum interval after the last accepted frame timestamp skips
`update` and `render` while still re-arming the next frame callback
(general rule); and concretely, after loading a module and playing at 1000,
driving the 10 frame-callback invocations of `throttleTs` (spaced 8 ms
apart) executes exactly 2 < 10 update/render pairs while re-arming all 10
times. -/
theorem lowend_throttle_skips :
    (∀ (s : CanvasEngine) (t : ℚ), s.isPlaying = true → s.animation ≠ none →
        0 < s.fpsThrottle → t - s.lastFrameTime < s.fpsThrottle →
        (animationLoop s t).executed = none ∧
        (animationLoop s t).rearmed = true) ∧
    loadAnimation (construct true 800 600) a0 0 = ⟨engLow, none⟩ ∧
    (runLoop (play engLow 1000) throttleTs).2.1 = 2 ∧
    (runLoop (play engLow 1000) throttleTs).2.2 = 10 ∧
    (2 : ℕ) < 10 := by
  refine ⟨?_, rfl, by decide, by decide, by decide⟩
  intro s t hp ha h3 hlt
  rw [animationLoop_executed_eq, animationLoop_rearmed_eq]
  rw [if_neg (by simp [hp, ha]), if_pos ⟨h3, hlt⟩, if_neg (by simp [hp, ha])]
  exact ⟨rfl, rfl⟩

theorem lowend_throttle_skips_witness :
    (animationLoop engThrottled 1008).executed = none ∧
    (animationLoop engThrottled 1008).rearmed = true :=
  lowend_throttle_skips.1 engThrottled 1008 rfl (by decide) (by decide)
    (by decide)

end Engine
